import Mathlib

/-!
Verification of the Orchard / issuance bundle codec and burn validation layer
of the QED-it librustzcash fork.

Byte streams are modelled as `List Nat` (each element one byte), and every
fallible reader is a function `List Nat → Except PErr (α × List Nat)` that
either fails with a typed error or returns the decoded value together with the
unconsumed remainder of the stream, mirroring the strict left-to-right
single-pass structure of the Rust code.

Canonical-encoding checks on curve points, keys and notes are delegated by the
source to the external `orchard` cryptographic library; they are modelled here
as abstract boolean validity predicates (`PointValid`, `IssuePrimValid`), and a
value of such a primitive type is identified with its canonical 32/43-byte
encoding, for which the library guarantees decode-of-encode succeeds.
-/

set_option maxRecDepth 100000

deriving instance DecidableEq for Except

namespace ZcashCodec

/-- Decode errors, mirroring the `std::io::ErrorKind` values used by the codec:
`eof` is `UnexpectedEof` (stream exhausted mid-field), `invalidData` covers
`InvalidInput` / `InvalidData` with the error message. -/
inductive PErr where
  | eof
  | invalidData (msg : String)
deriving DecidableEq, Repr

/-- Sequencing of fallible reads: run the first read, and on success feed the
value and the remaining stream to the continuation. -/
def pbind {α β : Type} (x : Except PErr (α × List Nat))
    (f : α → List Nat → Except PErr (β × List Nat)) : Except PErr (β × List Nat) :=
  match x with
  | .error e => .error e
  | .ok (a, s) => f a s

@[simp] theorem pbind_ok {α β : Type} (a : α) (s : List Nat)
    (f : α → List Nat → Except PErr (β × List Nat)) : pbind (.ok (a, s)) f = f a s := rfl

@[simp] theorem pbind_error {α β : Type} (e : PErr)
    (f : α → List Nat → Except PErr (β × List Nat)) :
    pbind (α := α) (.error e) f = .error e := rfl

/-- Rust `read_exact` into an `n`-byte buffer: consumes exactly `n` bytes, or
fails with `UnexpectedEof` when the stream is too short. -/
def readExact (n : Nat) (s : List Nat) : Except PErr (List Nat × List Nat) :=
  if s.length < n then .error .eof else .ok (s.take n, s.drop n)

theorem readExact_append (n : Nat) (l r : List Nat) (h : l.length = n) :
    readExact n (l ++ r) = .ok (l, r) := by
  subst h
  have hlen : ¬ (l ++ r).length < l.length := by
    simp [List.length_append]
  simp [readExact, hlen, List.take_left, List.drop_left]

theorem readExact_eof (n : Nat) (s : List Nat) (h : s.length < n) :
    readExact n s = .error .eof := by
  simp [readExact, h]

/-- Rust `read_u8`: one byte or `UnexpectedEof`. -/
def readByte (s : List Nat) : Except PErr (Nat × List Nat) :=
  match s with
  | [] => .error .eof
  | b :: r => .ok (b, r)

@[simp] theorem readByte_cons (b : Nat) (r : List Nat) : readByte (b :: r) = .ok (b, r) := rfl

/-- Little-endian byte decomposition of a natural number into `k` bytes. -/
def leBytes : Nat → Nat → List Nat
  | 0, _ => []
  | k + 1, u => u % 256 :: leBytes k (u / 256)

/-- Little-endian recomposition of a byte list into a natural number. -/
def fromLE : List Nat → Nat
  | [] => 0
  | b :: r => b + 256 * fromLE r

@[simp] theorem leBytes_length (k u : Nat) : (leBytes k u).length = k := by
  induction k generalizing u with
  | zero => rfl
  | succ k ih => simp [leBytes, ih]

theorem fromLE_leBytes (k u : Nat) : fromLE (leBytes k u) = u % 256 ^ k := by
  induction k generalizing u with
  | zero => simp [leBytes, fromLE, Nat.mod_one]
  | succ k ih =>
      have h256 : (256 : Nat) ^ (k + 1) = 256 * 256 ^ k := by
        rw [pow_succ]; ring
      rw [leBytes, fromLE, ih]
      conv_rhs => rw [h256, Nat.mod_mul]

/-- Modelled from the spec: the protocol "compact-size" variable-width unsigned
integer (the `zcash_encoding::CompactSize` helper used by the codec, which
lives in this repository outside the bundle-codec sources): reads are limited
to `MAX_SIZE`. -/
def MAX_SIZE : Nat := 0x02000000

/-- Final size check shared by every `CompactSize` read. -/
def checkMax (n : Nat) (s : List Nat) : Except PErr (Nat × List Nat) :=
  if MAX_SIZE < n then .error (.invalidData "CompactSize too large") else .ok (n, s)

/-- Modelled from the spec: `zcash_encoding::CompactSize::read` — a one-byte
flag selects the width, wider encodings of values representable in a narrower
width are rejected as non-canonical, and the result is capped at `MAX_SIZE`. -/
def compactSizeRead (s : List Nat) : Except PErr (Nat × List Nat) :=
  pbind (readByte s) fun flag s1 =>
    if flag < 253 then
      checkMax flag s1
    else if flag = 253 then
      pbind (readExact 2 s1) fun b s2 =>
        if fromLE b < 253 then .error (.invalidData "non-canonical CompactSize")
        else checkMax (fromLE b) s2
    else if flag = 254 then
      pbind (readExact 4 s1) fun b s2 =>
        if fromLE b < 0x10000 then .error (.invalidData "non-canonical CompactSize")
        else checkMax (fromLE b) s2
    else
      pbind (readExact 8 s1) fun b s2 =>
        if fromLE b < 0x100000000 then .error (.invalidData "non-canonical CompactSize")
        else checkMax (fromLE b) s2

/-- Modelled from the spec: `zcash_encoding::CompactSize::write`, the canonical
(narrowest) encoding of the value. -/
def compactSizeWrite (n : Nat) : List Nat :=
  if n < 253 then [n]
  else if n ≤ 0xFFFF then 253 :: leBytes 2 n
  else if n ≤ 0xFFFFFFFF then 254 :: leBytes 4 n
  else 255 :: leBytes 8 n

theorem compactSizeRead_write (n : Nat) (hn : n ≤ MAX_SIZE) (r : List Nat) :
    compactSizeRead (compactSizeWrite n ++ r) = .ok (n, r) := by
  have hmax : ¬ MAX_SIZE < n := by omega
  by_cases h1 : n < 253
  · simp [compactSizeWrite, h1, compactSizeRead, checkMax, hmax]
  · by_cases h2 : n ≤ 0xFFFF
    · have hle : fromLE (leBytes 2 n) = n := by
        rw [fromLE_leBytes]
        exact Nat.mod_eq_of_lt (by norm_num; omega)
      simp only [compactSizeWrite, h1, h2, if_false, if_true, List.cons_append]
      rw [compactSizeRead]
      norm_num
      rw [readExact_append 2 (leBytes 2 n) r (leBytes_length 2 n), pbind_ok, hle,
        if_neg h1]
      simp [checkMax, hmax]
    · have h3 : n ≤ 0xFFFFFFFF := by
        have : MAX_SIZE ≤ 0xFFFFFFFF := by norm_num [MAX_SIZE]
        omega
      have hle : fromLE (leBytes 4 n) = n := by
        rw [fromLE_leBytes]
        exact Nat.mod_eq_of_lt (by norm_num; omega)
      simp only [compactSizeWrite, h1, h2, h3, if_false, if_true, List.cons_append]
      rw [compactSizeRead]
      norm_num
      rw [readExact_append 4 (leBytes 4 n) r (leBytes_length 4 n), pbind_ok, hle,
        if_neg (show ¬ n < 0x10000 by omega)]
      simp [checkMax, hmax]

/-- Read `n` records with the given one-record reader (the body of
`zcash_encoding::Vector::read` / `Array::read` after the count is known). -/
def readCount {α : Type} (p : List Nat → Except PErr (α × List Nat)) :
    Nat → List Nat → Except PErr (List α × List Nat)
  | 0, s => .ok ([], s)
  | n + 1, s =>
      pbind (p s) fun a s1 =>
        pbind (readCount p n s1) fun l s2 => .ok (a :: l, s2)

/-- `zcash_encoding::Vector::read`: a compact-size count followed by that many
records. -/
def vectorRead {α : Type} (p : List Nat → Except PErr (α × List Nat))
    (s : List Nat) : Except PErr (List α × List Nat) :=
  pbind (compactSizeRead s) fun n s1 => readCount p n s1

/-- `zcash_encoding::Vector::write` / `Vector::write_nonempty`: compact-size
count followed by the records. -/
def vectorWrite {α : Type} (w : α → List Nat) (l : List α) : List Nat :=
  compactSizeWrite l.length ++ (l.map w).flatten

theorem readCount_map {α β : Type} (p : List Nat → Except PErr (β × List Nat))
    (w : α → List Nat) (f : α → β) (l : List α) (r : List Nat)
    (h : ∀ a ∈ l, ∀ r2 : List Nat, p (w a ++ r2) = .ok (f a, r2)) :
    readCount p l.length ((l.map w).flatten ++ r) = .ok (l.map f, r) := by
  induction l with
  | nil => simp [readCount]
  | cons a tl ih =>
      simp only [List.map_cons, List.flatten, List.length_cons, List.append_assoc, readCount]
      rw [h a (List.mem_cons_self a tl), pbind_ok,
        ih (fun x hx r2 => h x (List.mem_cons_of_mem a hx) r2), pbind_ok]

theorem vectorRead_map {α β : Type} (p : List Nat → Except PErr (β × List Nat))
    (w : α → List Nat) (f : α → β) (l : List α) (r : List Nat)
    (hn : l.length ≤ MAX_SIZE)
    (h : ∀ a ∈ l, ∀ r2 : List Nat, p (w a ++ r2) = .ok (f a, r2)) :
    vectorRead p (vectorWrite w l ++ r) = .ok (l.map f, r) := by
  rw [vectorWrite, vectorRead, List.append_assoc, compactSizeRead_write _ hn, pbind_ok,
    readCount_map p w f l r h]

theorem readCount_bytes (l r : List Nat) :
    readCount readByte l.length (l ++ r) = .ok (l, r) := by
  induction l with
  | nil => simp [readCount]
  | cons b tl ih => simp [readCount, ih]

theorem vectorRead_bytes (l r : List Nat) (hn : l.length ≤ MAX_SIZE) :
    vectorRead readByte (compactSizeWrite l.length ++ (l ++ r)) = .ok (l, r) := by
  rw [vectorRead, compactSizeRead_write _ hn, pbind_ok, readCount_bytes]

/-- Modelled from the spec: the ±21-million-ZEC bound enforced by the
`ZatBalance` type that `Transaction::read_amount` decodes into. -/
def MAX_MONEY : Int := 2100000000000000

/-- Two's-complement interpretation of a 64-bit little-endian value. -/
def decodeInt64 (u : Nat) : Int :=
  if u < 2 ^ 63 then (u : Int) else (u : Int) - 2 ^ 64

/-- Modelled from the spec: `Transaction::read_amount` — an 8-byte signed
little-endian value balance, range-checked into `ZatBalance`. -/
def read_amount (s : List Nat) : Except PErr (Int × List Nat) :=
  pbind (readExact 8 s) fun b s1 =>
    if -MAX_MONEY ≤ decodeInt64 (fromLE b) ∧ decodeInt64 (fromLE b) ≤ MAX_MONEY then
      .ok (decodeInt64 (fromLE b), s1)
    else .error (.invalidData "valueBalance out of range")

/-- `ZatBalance::to_i64_le_bytes`: the 8-byte little-endian two's-complement
encoding of the balance. -/
def i64LeBytes (z : Int) : List Nat := leBytes 8 (z % (2 ^ 64 : Int)).toNat

@[simp] theorem i64LeBytes_length (z : Int) : (i64LeBytes z).length = 8 := by
  simp [i64LeBytes]

theorem read_amount_write (z : Int) (h1 : -MAX_MONEY ≤ z) (h2 : z ≤ MAX_MONEY)
    (r : List Nat) : read_amount (i64LeBytes z ++ r) = .ok (z, r) := by
  have hmod0 : (0 : Int) ≤ z % (2 ^ 64 : Int) := Int.emod_nonneg z (by norm_num)
  have hmodlt : z % (2 ^ 64 : Int) < 2 ^ 64 := Int.emod_lt_of_pos z (by norm_num)
  have htn : ((z % (2 ^ 64 : Int)).toNat : Int) = z % (2 ^ 64 : Int) :=
    Int.toNat_of_nonneg hmod0
  have hfl : fromLE (leBytes 8 (z % (2 ^ 64 : Int)).toNat) = (z % (2 ^ 64 : Int)).toNat := by
    rw [fromLE_leBytes]
    refine Nat.mod_eq_of_lt ?_
    have : ((z % (2 ^ 64 : Int)).toNat : Int) < (2 : Int) ^ 64 := by rw [htn]; exact hmodlt
    norm_num at this ⊢
    omega
  have hdec : decodeInt64 (fromLE (leBytes 8 (z % (2 ^ 64 : Int)).toNat)) = z := by
    rw [hfl, decodeInt64]
    have hM : MAX_MONEY < 2 ^ 63 := by norm_num [MAX_MONEY]
    by_cases hc : (z % (2 ^ 64 : Int)).toNat < 2 ^ 63
    · rw [if_pos hc, htn]
      omega
    · rw [if_neg hc, htn]
      omega
  rw [read_amount, i64LeBytes, readExact_append 8 _ r (leBytes_length 8 _), pbind_ok, hdec,
    if_pos ⟨h1, h2⟩]

/-- Abstract canonical-validity predicates for the fixed-size curve-point
primitives, standing for the decode checks performed by the external `orchard`
library (`ValueCommitment::from_bytes`, `Nullifier::from_bytes`,
`VerificationKey::try_from`, `ExtractedNoteCommitment::from_bytes`,
`Anchor::from_bytes`, `AssetBase::from_bytes`). -/
structure PointValid where
  cv : List Nat → Bool
  nf : List Nat → Bool
  rk : List Nat → Bool
  cmx : List Nat → Bool
  anchor : List Nat → Bool
  asset : List Nat → Bool

/-- Shared shape of the 32-byte point readers: read 32 bytes and reject
non-canonical encodings with an `InvalidInput`-style error. -/
def readPoint32 (valid : List Nat → Bool) (msg : String) (s : List Nat) :
    Except PErr (List Nat × List Nat) :=
  pbind (readExact 32 s) fun b s1 =>
    if valid b then .ok (b, s1) else .error (.invalidData msg)

theorem readPoint32_append (valid : List Nat → Bool) (msg : String) (b r : List Nat)
    (hlen : b.length = 32) (hv : valid b = true) :
    readPoint32 valid msg (b ++ r) = .ok (b, r) := by
  rw [readPoint32, readExact_append 32 b r hlen, pbind_ok, if_pos hv]

/-- `read_value_commitment` from `transaction/components/orchard.rs`. -/
def read_value_commitment (P : PointValid) : List Nat → Except PErr (List Nat × List Nat) :=
  readPoint32 P.cv "invalid Pallas point for value commitment"

/-- `read_nullifier` from `transaction/components/orchard.rs`. -/
def read_nullifier (P : PointValid) : List Nat → Except PErr (List Nat × List Nat) :=
  readPoint32 P.nf "invalid Pallas point for nullifier"

/-- `read_verification_key` from `transaction/components/orchard.rs`. -/
def read_verification_key (P : PointValid) : List Nat → Except PErr (List Nat × List Nat) :=
  readPoint32 P.rk "invalid verification key"

/-- `read_cmx` from `transaction/components/orchard.rs`. -/
def read_cmx (P : PointValid) : List Nat → Except PErr (List Nat × List Nat) :=
  readPoint32 P.cmx "invalid Pallas base for field cmx"

/-- `read_anchor` from `transaction/components/orchard.rs`. -/
def read_anchor (P : PointValid) : List Nat → Except PErr (List Nat × List Nat) :=
  readPoint32 P.anchor "invalid Orchard anchor"

/-- The Orchard bundle flags: bit 0 enables spends, bit 1 enables outputs; the
other six bits (`FLAGS_EXPECTED_UNSET`) must be clear. -/
structure Flags where
  spends_enabled : Bool
  outputs_enabled : Bool
deriving DecidableEq, Repr

/-- `Flags::to_byte`. -/
def Flags.to_byte (f : Flags) : Nat :=
  (if f.spends_enabled then 1 else 0) + (if f.outputs_enabled then 2 else 0)

/-- `Flags::from_byte`: rejects any byte with one of `FLAGS_EXPECTED_UNSET`
set. -/
def Flags.from_byte (b : Nat) : Option Flags :=
  if b < 4 then some ⟨b.testBit 0, b.testBit 1⟩ else none

theorem Flags.from_to_byte (f : Flags) : Flags.from_byte f.to_byte = some f := by
  rcases f with ⟨s, o⟩
  cases s <;> cases o <;> rfl

/-- `read_flags` from `transaction/components/orchard.rs`. -/
def read_flags (s : List Nat) : Except PErr (Flags × List Nat) :=
  pbind (readByte s) fun b s1 =>
    match Flags.from_byte b with
    | some f => .ok (f, s1)
    | none => .error (.invalidData "invalid Orchard flags")

theorem read_flags_byte (f : Flags) (r : List Nat) :
    read_flags (f.to_byte :: r) = .ok (f, r) := by
  rw [read_flags, readByte_cons, pbind_ok, Flags.from_to_byte]

/-- `read_signature`: a 64-byte RedPallas signature carried opaquely. -/
def read_signature (s : List Nat) : Except PErr (List Nat × List Nat) :=
  readExact 64 s

theorem read_signature_append (b r : List Nat) (h : b.length = 64) :
    read_signature (b ++ r) = .ok (b, r) := readExact_append 64 b r h

/-- `TransmittedNoteCiphertext`: 32-byte ephemeral key, domain-fixed-length
encrypted payload, 80-byte output-encryption tail. -/
structure TransmittedNoteCiphertext where
  epk_bytes : List Nat
  enc_ciphertext : List Nat
  out_ciphertext : List Nat
deriving DecidableEq, Repr

/-- `orchard::Action`: one spend-and-output pair, generic over the
authorization attached (`Unit` before signatures are read, a 64-byte
signature afterwards). -/
structure Action (A : Type) where
  cv_net : List Nat
  nf_old : List Nat
  rk : List Nat
  cmx : List Nat
  encrypted_note : TransmittedNoteCiphertext
  authorization : A
deriving DecidableEq, Repr

/-- `Action::try_map` discarding the authorization (the `Action<(), D>` an
action is first decoded as). -/
def Action.forget {A : Type} (a : Action A) : Action Unit :=
  ⟨a.cv_net, a.nf_old, a.rk, a.cmx, a.encrypted_note, ()⟩

/-- `OrchardVanilla::ENC_CIPHERTEXT_SIZE` (the `OrchardDomainCommon` constant
of the external `orchard` library for the vanilla flavor). -/
def vanillaEncSize : Nat := 580

/-- `OrchardZSA::ENC_CIPHERTEXT_SIZE`. -/
def zsaEncSize : Nat := 612

/-- `read_note_ciphertext` from `transaction/components/orchard.rs`: epk, the
domain-length encrypted payload, and the 80-byte tail, in that order. -/
def read_note_ciphertext (encSize : Nat) (s : List Nat) :
    Except PErr (TransmittedNoteCiphertext × List Nat) :=
  pbind (readExact 32 s) fun epk s1 =>
    pbind (readExact encSize s1) fun enc s2 =>
      pbind (readExact 80 s2) fun out s3 => .ok (⟨epk, enc, out⟩, s3)

/-- `write_note_ciphertext` from `transaction/components/orchard.rs`. -/
def write_note_ciphertext (nc : TransmittedNoteCiphertext) : List Nat :=
  nc.epk_bytes ++ nc.enc_ciphertext ++ nc.out_ciphertext

theorem read_note_ciphertext_write (encSize : Nat) (nc : TransmittedNoteCiphertext)
    (r : List Nat) (h1 : nc.epk_bytes.length = 32) (h2 : nc.enc_ciphertext.length = encSize)
    (h3 : nc.out_ciphertext.length = 80) :
    read_note_ciphertext encSize (write_note_ciphertext nc ++ r) = .ok (nc, r) := by
  rw [write_note_ciphertext, read_note_ciphertext, List.append_assoc, List.append_assoc,
    readExact_append 32 _ _ h1, pbind_ok, readExact_append encSize _ _ h2, pbind_ok,
    readExact_append 80 _ _ h3, pbind_ok]

/-- `read_action_without_auth` from `transaction/components/orchard.rs`: value
commitment, nullifier, verification key, note commitment, note ciphertext, in
fixed order, with a placeholder authorization. -/
def read_action_without_auth (P : PointValid) (encSize : Nat) (s : List Nat) :
    Except PErr (Action Unit × List Nat) :=
  pbind (read_value_commitment P s) fun cv s1 =>
    pbind (read_nullifier P s1) fun nf s2 =>
      pbind (read_verification_key P s2) fun rk s3 =>
        pbind (read_cmx P s3) fun cmx s4 =>
          pbind (read_note_ciphertext encSize s4) fun nc s5 =>
            .ok (⟨cv, nf, rk, cmx, nc, ()⟩, s5)

/-- `write_action_without_auth` from `transaction/components/orchard.rs`. -/
def write_action_without_auth {A : Type} (a : Action A) : List Nat :=
  a.cv_net ++ a.nf_old ++ a.rk ++ a.cmx ++ write_note_ciphertext a.encrypted_note

/-- Validity of an in-memory action: each primitive field is its canonical
fixed-size encoding, and the spend-auth signature is 64 bytes. A value built
out of the external library's types always satisfies this. -/
def ValidAction (P : PointValid) (encSize : Nat) (a : Action (List Nat)) : Prop :=
  a.cv_net.length = 32 ∧ P.cv a.cv_net = true ∧
  a.nf_old.length = 32 ∧ P.nf a.nf_old = true ∧
  a.rk.length = 32 ∧ P.rk a.rk = true ∧
  a.cmx.length = 32 ∧ P.cmx a.cmx = true ∧
  a.encrypted_note.epk_bytes.length = 32 ∧
  a.encrypted_note.enc_ciphertext.length = encSize ∧
  a.encrypted_note.out_ciphertext.length = 80 ∧
  a.authorization.length = 64

instance (P : PointValid) (encSize : Nat) (a : Action (List Nat)) :
    Decidable (ValidAction P encSize a) := by
  unfold ValidAction; infer_instance

theorem read_action_without_auth_write (P : PointValid) (encSize : Nat)
    (a : Action (List Nat)) (r : List Nat) (h : ValidAction P encSize a) :
    read_action_without_auth P encSize (write_action_without_auth a ++ r) =
      .ok (a.forget, r) := by
  obtain ⟨l1, v1, l2, v2, l3, v3, l4, v4, e1, e2, e3, _⟩ := h
  rw [write_action_without_auth, read_action_without_auth]
  simp only [List.append_assoc]
  rw [read_value_commitment, readPoint32_append _ _ _ _ l1 v1, pbind_ok,
    read_nullifier, readPoint32_append _ _ _ _ l2 v2, pbind_ok,
    read_verification_key, readPoint32_append _ _ _ _ l3 v3, pbind_ok,
    read_cmx, readPoint32_append _ _ _ _ l4 v4, pbind_ok,
    read_note_ciphertext_write encSize _ r e1 e2 e3, pbind_ok, Action.forget]

/-- The second pass of the two-pass action decode: attach one 64-byte
spend-auth signature, in order, to each action previously read without
authorization (the `act.try_map(|_| read_signature(...))` loop). -/
def attachSigs : List (Action Unit) → List Nat → Except PErr (List (Action (List Nat)) × List Nat)
  | [], s => .ok ([], s)
  | a :: rest, s =>
      pbind (read_signature s) fun sig s1 =>
        pbind (attachSigs rest s1) fun others s2 =>
          .ok (⟨a.cv_net, a.nf_old, a.rk, a.cmx, a.encrypted_note, sig⟩ :: others, s2)

theorem attachSigs_write (l : List (Action (List Nat))) (r : List Nat)
    (h : ∀ a ∈ l, a.authorization.length = 64) :
    attachSigs (l.map Action.forget) ((l.map (fun a => a.authorization)).flatten ++ r) =
      .ok (l, r) := by
  induction l with
  | nil => simp [attachSigs]
  | cons a tl ih =>
      simp only [List.map_cons, List.flatten, List.append_assoc, attachSigs]
      rw [read_signature_append _ _ (h a (List.mem_cons_self a tl)), pbind_ok,
        ih (fun x hx => h x (List.mem_cons_of_mem a hx)), pbind_ok]
      rcases a with ⟨cv, nf, rk, cmx, nc, auth⟩
      rfl

theorem attachSigs_eof (l : List (Action Unit)) (s : List Nat)
    (h : s.length < 64 * l.length) : attachSigs l s = .error .eof := by
  induction l generalizing s with
  | nil => simp at h
  | cons a tl ih =>
      by_cases hs : s.length < 64
      · rw [attachSigs, read_signature, readExact_eof 64 s hs, pbind_error]
      · rw [attachSigs, read_signature, readExact]
        rw [if_neg hs, pbind_ok]
        rw [ih (s.drop 64) (by simp only [List.length_drop, List.length_cons] at h ⊢; omega),
          pbind_error]

/-- `orchard::Bundle<Authorized, Amount, OrchardVanilla>`: the actions, flags,
value balance, burn list, anchor and the `Authorized` authorization (proof
bytes plus binding signature), with nonemptiness of `actions` maintained as an
invariant rather than by the list type. -/
structure Bundle where
  actions : List (Action (List Nat))
  flags : Flags
  value_balance : Int
  burn : List (List Nat × Int)
  anchor : List Nat
  proof : List Nat
  binding_signature : List Nat
deriving DecidableEq, Repr

/-- `read_orchard_bundle` from `transaction/components/orchard.rs` (v5
framing): actions without authorization, then — unless the action list was
empty, in which case there is no bundle — flags, value balance, anchor, proof
bytes, one spend-auth signature per action, and the binding signature. -/
def read_orchard_bundle (P : PointValid) (s : List Nat) :
    Except PErr (Option Bundle × List Nat) :=
  pbind (vectorRead (read_action_without_auth P vanillaEncSize) s) fun acts s1 =>
    if acts.isEmpty then .ok (none, s1)
    else
      pbind (read_flags s1) fun flags s2 =>
        pbind (read_amount s2) fun vb s3 =>
          pbind (read_anchor P s3) fun anchor s4 =>
            pbind (vectorRead readByte s4) fun proof s5 =>
              pbind (attachSigs acts s5) fun actions s6 =>
                pbind (read_signature s6) fun bsig s7 =>
                  .ok (some ⟨actions, flags, vb, [], anchor, proof, bsig⟩, s7)

/-- `write_v5_bundle` from `transaction/components/orchard.rs`: the byte-exact
v5 serialization. The burn list is not part of the v5 format and is not
written. -/
def write_v5_bundle (b : Bundle) : List Nat :=
  vectorWrite write_action_without_auth b.actions ++
  [b.flags.to_byte] ++
  i64LeBytes b.value_balance ++
  b.anchor ++
  vectorWrite (fun x => [x]) b.proof ++
  (b.actions.map (fun a => a.authorization)).flatten ++
  b.binding_signature

/-- `write_orchard_bundle` from `transaction/components/orchard.rs` (the
`OrchardVanilla` arm; the ZSA and swap arms are feature-gated out): an absent
bundle is a single zero compact-size count. -/
def write_orchard_bundle : Option Bundle → List Nat
  | some b => write_v5_bundle b
  | none => compactSizeWrite 0

/-- Validity of an in-memory v5 `OrchardVanilla` bundle: a nonzero number of
actions, each action valid for the vanilla domain, canonical anchor, in-range
value balance, counts small enough for their compact-size prefix, and an empty
burn list (no burn field exists in the vanilla flavor or the v5 format). -/
def ValidVanillaBundle (P : PointValid) (b : Bundle) : Prop :=
  b.actions ≠ [] ∧
  b.actions.length ≤ MAX_SIZE ∧
  (∀ a ∈ b.actions, ValidAction P vanillaEncSize a) ∧
  b.anchor.length = 32 ∧ P.anchor b.anchor = true ∧
  -MAX_MONEY ≤ b.value_balance ∧ b.value_balance ≤ MAX_MONEY ∧
  b.proof.length ≤ MAX_SIZE ∧
  b.binding_signature.length = 64 ∧
  b.burn = []

instance (P : PointValid) (b : Bundle) : Decidable (ValidVanillaBundle P b) := by
  unfold ValidVanillaBundle; infer_instance

theorem vectorWrite_singleton (l : List Nat) :
    vectorWrite (fun x => [x]) l = compactSizeWrite l.length ++ l := by
  rw [vectorWrite]
  congr 1
  induction l with
  | nil => rfl
  | cons b tl ih => simp only [List.map_cons, List.flatten, ih]; rfl

/-- C1. For every validly constructed v5 `OrchardVanilla` bundle, decoding the
bytes produced by `write_v5_bundle` with `read_orchard_bundle` returns `Some`
of the identical bundle — same action ordering, flags, value balance, anchor,
proof bytes, binding signature, and each spend-auth signature attached to the
action it was written for — leaving any trailing bytes unconsumed. -/
theorem v5_bundle_roundtrip (P : PointValid) (b : Bundle) (r : List Nat)
    (h : ValidVanillaBundle P b) :
    read_orchard_bundle P (write_v5_bundle b ++ r) = .ok (some b, r) := by
  obtain ⟨hne, hcount, hacts, hal, hav, hv1, hv2, hproof, hbs, hburn⟩ := h
  rcases b with ⟨actions, flags, vb, burn, anchor, proof, bsig⟩
  simp only at hne hcount hacts hal hav hv1 hv2 hproof hbs hburn
  subst hburn
  rw [write_v5_bundle, read_orchard_bundle]
  simp only [vectorWrite_singleton, List.append_assoc, List.singleton_append,
    List.cons_append, List.nil_append]
  rw [vectorRead_map (read_action_without_auth P vanillaEncSize) write_action_without_auth
      Action.forget actions _ hcount
      (fun a ha r2 => read_action_without_auth_write P vanillaEncSize a r2 (hacts a ha)),
    pbind_ok]
  have hie : (actions.map Action.forget).isEmpty = false := by
    cases actions with
    | nil => exact absurd rfl hne
    | cons a tl => rfl
  rw [hie, if_neg Bool.false_ne_true]
  rw [read_flags_byte, pbind_ok, read_amount_write vb hv1 hv2, pbind_ok,
    read_anchor, readPoint32_append _ _ _ _ hal hav, pbind_ok,
    vectorRead_bytes proof _ hproof, pbind_ok,
    attachSigs_write actions _ (fun a ha => (hacts a ha).2.2.2.2.2.2.2.2.2.2.2),
    pbind_ok, read_signature_append bsig r hbs, pbind_ok]

/-- C5. Encoding an absent Orchard bundle writes exactly the single byte `0`
(a zero compact-size count and nothing else); and decoding any byte stream
whose initial compact-size action count is zero yields `None`, leaving every
byte after that count untouched. -/
theorem empty_is_absent :
    write_orchard_bundle none = [0] ∧
    ∀ (P : PointValid) (s r : List Nat), compactSizeRead s = .ok (0, r) →
      read_orchard_bundle P s = .ok (none, r) := by
  constructor
  · rfl
  · intro P s r h
    rw [read_orchard_bundle, vectorRead, h, pbind_ok]
    simp [readCount]

/-- The v5 serialization up to and including the proof bytes — everything that
precedes the per-action spend-auth signature array. -/
def writeV5PreSig (b : Bundle) : List Nat :=
  vectorWrite write_action_without_auth b.actions ++
  [b.flags.to_byte] ++
  i64LeBytes b.value_balance ++
  b.anchor ++
  vectorWrite (fun x => [x]) b.proof

/-- C6. A v5 stream that declares `N ≥ 1` actions but, after the proof bytes,
ends before `N` 64-byte spend-auth signatures can be read, fails decode with
the unexpected-end-of-input error and yields no bundle. -/
theorem v5_truncated_sigs_eof (P : PointValid) (b : Bundle)
    (h : ValidVanillaBundle P b) (sigs : List Nat)
    (hlen : sigs.length < 64 * b.actions.length) :
    read_orchard_bundle P (writeV5PreSig b ++ sigs) = .error .eof := by
  obtain ⟨hne, hcount, hacts, hal, hav, hv1, hv2, hproof, _, _⟩ := h
  rcases b with ⟨actions, flags, vb, burn, anchor, proof, bsig⟩
  simp only at hne hcount hacts hal hav hv1 hv2 hproof hlen
  rw [writeV5PreSig, read_orchard_bundle]
  simp only [vectorWrite_singleton, List.append_assoc, List.singleton_append,
    List.cons_append, List.nil_append]
  rw [vectorRead_map (read_action_without_auth P vanillaEncSize) write_action_without_auth
      Action.forget actions _ hcount
      (fun a ha r2 => read_action_without_auth_write P vanillaEncSize a r2 (hacts a ha)),
    pbind_ok]
  have hie : (actions.map Action.forget).isEmpty = false := by
    cases actions with
    | nil => exact absurd rfl hne
    | cons a tl => rfl
  rw [hie, if_neg Bool.false_ne_true]
  rw [read_flags_byte, pbind_ok, read_amount_write vb hv1 hv2, pbind_ok,
    read_anchor, readPoint32_append _ _ _ _ hal hav, pbind_ok,
    vectorRead_bytes proof _ hproof, pbind_ok,
    attachSigs_eof (actions.map Action.forget) sigs
      (by simpa using hlen), pbind_error]

/-- A trivially-true instantiation of the abstract point-validity predicates,
used to run the codec on concrete byte streams. -/
def allValid : PointValid :=
  ⟨fun _ => true, fun _ => true, fun _ => true, fun _ => true, fun _ => true, fun _ => true⟩

/-- A concrete note ciphertext of the vanilla domain sizes. -/
def sampleNC : TransmittedNoteCiphertext :=
  ⟨List.replicate 32 1, List.replicate 580 2, List.replicate 80 3⟩

/-- A concrete action whose spend-auth signature is 64 copies of `k`. -/
def sampleAction (k : Nat) : Action (List Nat) :=
  ⟨List.replicate 32 4, List.replicate 32 5, List.replicate 32 6, List.replicate 32 7,
    sampleNC, List.replicate 64 k⟩

/-- A concrete one-action v5 bundle. -/
def sampleBundle : Bundle :=
  ⟨[sampleAction 8], ⟨true, false⟩, 17, [], List.replicate 32 9, [1, 2, 3],
    List.replicate 64 10⟩

/-- A concrete three-action v5 bundle. -/
def sampleBundle3 : Bundle :=
  ⟨[sampleAction 8, sampleAction 11, sampleAction 12], ⟨true, true⟩, -3, [],
    List.replicate 32 9, [1, 2, 3], List.replicate 64 10⟩

theorem v5_bundle_roundtrip_witness :
    ValidVanillaBundle allValid sampleBundle ∧
    read_orchard_bundle allValid (write_v5_bundle sampleBundle ++ []) =
      .ok (some sampleBundle, []) :=
  ⟨by decide, v5_bundle_roundtrip allValid sampleBundle [] (by decide)⟩

theorem empty_is_absent_witness :
    compactSizeRead [0, 5, 6] = .ok (0, [5, 6]) ∧
    read_orchard_bundle allValid [0, 5, 6] = .ok (none, [5, 6]) :=
  ⟨by decide, empty_is_absent.2 allValid [0, 5, 6] [5, 6] (by decide)⟩

theorem v5_truncated_sigs_eof_witness :
    ValidVanillaBundle allValid sampleBundle3 ∧
    (List.replicate 128 0).length < 64 * sampleBundle3.actions.length ∧
    read_orchard_bundle allValid (writeV5PreSig sampleBundle3 ++ List.replicate 128 0) =
      .error .eof :=
  ⟨by decide, by decide,
    v5_truncated_sigs_eof allValid sampleBundle3 (by decide) (List.replicate 128 0) (by decide)⟩

/-- One v6 action group: actions, flags, anchor, proof and the timelimit
(which the current rule forces to zero). -/
structure ActionGroup where
  actions : List (Action (List Nat))
  flags : Flags
  anchor : List Nat
  proof : List Nat
  timelimit : Nat
deriving DecidableEq, Repr

/-- `read_action_group` from `transaction/components/orchard.rs` (feature-gated
v6 code): actions without authorization (empty is a hard error), flags,
anchor, proof bytes, a 4-byte little-endian timelimit that must be zero, then
one spend-auth signature per action. -/
def read_action_group (P : PointValid) (s : List Nat) :
    Except PErr (ActionGroup × List Nat) :=
  pbind (vectorRead (read_action_without_auth P zsaEncSize) s) fun acts s1 =>
    if acts.isEmpty then
      .error (.invalidData "An action group must contain at least one action")
    else
      pbind (read_flags s1) fun flags s2 =>
        pbind (read_anchor P s2) fun anchor s3 =>
          pbind (vectorRead readByte s3) fun proof s4 =>
            pbind (readExact 4 s4) fun tl s5 =>
              if fromLE tl ≠ 0 then
                .error (.invalidData "Timelimit field must be set to zero")
              else
                pbind (attachSigs acts s5) fun actions s6 =>
                  .ok (⟨actions, flags, anchor, proof, fromLE tl⟩, s6)

/-- `read_action_groups` from `transaction/components/orchard.rs`: a
compact-size group count; zero groups reads nothing further, and with
`force_single_group` any count other than one is a hard decode error. -/
def read_action_groups (P : PointValid) (force_single_group : Bool) (s : List Nat) :
    Except PErr (List ActionGroup × List Nat) :=
  pbind (compactSizeRead s) fun numActionGroups s1 =>
    if numActionGroups = 0 then .ok ([], s1)
    else if force_single_group ∧ numActionGroups ≠ 1 then
      .error (.invalidData "A V6 transaction must contain exactly one action group")
    else readCount (read_action_group P) numActionGroups s1

/-- `read_note_value` from `transaction/components/orchard.rs`: an 8-byte
little-endian `NoteValue`, carried without validation. -/
def read_note_value (s : List Nat) : Except PErr (Nat × List Nat) :=
  pbind (readExact 8 s) fun b s1 => .ok (fromLE b, s1)

/-- `read_asset` (from `issuance.rs`, also used for the v6 burn list): a
32-byte `AssetBase` rejecting non-canonical encodings. -/
def read_asset (valid : List Nat → Bool) : List Nat → Except PErr (List Nat × List Nat) :=
  readPoint32 valid "Invalid asset"

/-- `read_burn` from `transaction/components/orchard.rs`: asset then amount. -/
def read_burn (P : PointValid) (s : List Nat) :
    Except PErr ((List Nat × Nat) × List Nat) :=
  pbind (read_asset P.asset s) fun a s1 =>
    pbind (read_note_value s1) fun v s2 => .ok ((a, v), s2)

/-- `read_bundle_balance_metadata` from `transaction/components/orchard.rs`:
value balance, burn list, binding signature. -/
def read_bundle_balance_metadata (P : PointValid) (s : List Nat) :
    Except PErr ((Int × List (List Nat × Nat) × List Nat) × List Nat) :=
  pbind (read_amount s) fun vb s1 =>
    pbind (vectorRead (read_burn P) s1) fun burn s2 =>
      pbind (read_signature s2) fun bsig s3 => .ok ((vb, burn, bsig), s3)

/-- `orchard::Bundle<Authorized, Amount, OrchardZSA>` as assembled by the v6
reader. -/
structure ZsaBundle where
  actions : List (Action (List Nat))
  flags : Flags
  value_balance : Int
  burn : List (List Nat × Nat)
  anchor : List Nat
  proof : List Nat
  binding_signature : List Nat
deriving DecidableEq, Repr

/-- Modelled from the spec: `read_orchard_zsa_bundle` — the v6 Orchard decode
reads the action groups with the single-group constraint in force, a zero
group count means no bundle is present, and otherwise the single group is
combined with the trailing value balance, burn list and binding signature.
(The feature-gated source of this wrapper does not compile as written; the
spec's v6 framing rule, together with `read_action_groups`, decides its
shape.) -/
def read_orchard_zsa_bundle (P : PointValid) (s : List Nat) :
    Except PErr (Option ZsaBundle × List Nat) :=
  pbind (read_action_groups P true s) fun groups s1 =>
    match groups with
    | [] => .ok (none, s1)
    | g :: _ =>
        pbind (read_bundle_balance_metadata P s1) fun m s2 =>
          .ok (some ⟨g.actions, g.flags, m.1, m.2.1, g.anchor, g.proof, m.2.2⟩, s2)

/-- C4. In the v6 action-group framing, a compact-size group count of zero
yields no bundle and no error, while any group count other than zero or one
makes the whole decode fail with the structural error — the decoder never
silently reads only the first group of a multi-group stream. -/
theorem v6_group_count_enforcement :
    ∀ (P : PointValid) (s r : List Nat) (n : Nat), compactSizeRead s = .ok (n, r) →
      (n = 0 →
        read_action_groups P true s = .ok ([], r) ∧
        read_orchard_zsa_bundle P s = .ok (none, r)) ∧
      (n ≠ 0 → n ≠ 1 →
        read_action_groups P true s =
          .error (.invalidData "A V6 transaction must contain exactly one action group") ∧
        read_orchard_zsa_bundle P s =
          .error (.invalidData "A V6 transaction must contain exactly one action group")) := by
  intro P s r n h
  constructor
  · intro h0
    subst h0
    have hg : read_action_groups P true s = .ok ([], r) := by
      rw [read_action_groups, h, pbind_ok, if_pos rfl]
    exact ⟨hg, by rw [read_orchard_zsa_bundle, hg, pbind_ok]⟩
  · intro h0 h1
    have hg : read_action_groups P true s =
        .error (.invalidData "A V6 transaction must contain exactly one action group") := by
      rw [read_action_groups, h, pbind_ok, if_neg h0, if_pos ⟨rfl, h1⟩]
    exact ⟨hg, by rw [read_orchard_zsa_bundle, hg, pbind_error]⟩

theorem v6_group_count_enforcement_witness :
    compactSizeRead [0] = .ok (0, []) ∧
    read_orchard_zsa_bundle allValid [0] = .ok (none, []) ∧
    compactSizeRead [2] = .ok (2, []) ∧
    read_orchard_zsa_bundle allValid [2] =
      .error (.invalidData "A V6 transaction must contain exactly one action group") :=
  ⟨by decide,
    ((v6_group_count_enforcement allValid [0] [] 0 (by decide)).1 rfl).2,
    by decide,
    ((v6_group_count_enforcement allValid [2] [] 2 (by decide)).2
      (by decide) (by decide)).2⟩

/-- `BurnError` from `burn_validation.rs`. -/
inductive BurnError where
  | DuplicateAsset
  | NativeAsset
  | ZeroAmount
deriving DecidableEq, Repr

/-- The `Display` strings of `BurnError`, used when burn validation aborts a
decode. -/
def burnErrorMessage : BurnError → String
  | .DuplicateAsset => "Encountered a duplicate asset to burn."
  | .NativeAsset => "Cannot burn a native asset."
  | .ZeroAmount => "Cannot burn an asset with a zero amount."

/-- The loop of `validate_bundle_burn`, with the hash set of already-seen
assets carried as a list: per entry, the duplicate check comes first, then the
native-asset check, then the zero-amount check. An `AssetBase` is identified
with its canonical 32-byte encoding and the protocol's native asset is the
`native` parameter. -/
def validateBurnGo (native : List Nat) (seen : List (List Nat)) :
    List (List Nat × Int) → Except BurnError Unit
  | [] => .ok ()
  | (asset, amount) :: rest =>
      if asset ∈ seen then .error .DuplicateAsset
      else if asset = native then .error .NativeAsset
      else if amount = 0 then .error .ZeroAmount
      else validateBurnGo native (asset :: seen) rest

/-- `validate_bundle_burn` from `burn_validation.rs`: a single left-to-right
scan starting from an empty seen-set. -/
def validate_bundle_burn (native : List Nat) (burn : List (List Nat × Int)) :
    Except BurnError Unit :=
  validateBurnGo native [] burn

/-- `read_asset_base` from `burn_serialization.rs`. -/
def read_asset_base (P : PointValid) : List Nat → Except PErr (List Nat × List Nat) :=
  readPoint32 P.asset "Invalid AssetBase!"

/-- `read_asset_burn` from `burn_serialization.rs`: asset base then amount. -/
def read_asset_burn (P : PointValid) (s : List Nat) :
    Except PErr ((List Nat × Int) × List Nat) :=
  pbind (read_asset_base P s) fun a s1 =>
    pbind (read_amount s1) fun amt s2 => .ok ((a, amt), s2)

/-- `read_bundle_burn` from `burn_serialization.rs`: read the burn vector,
then validate it as a unit, turning any `BurnError` into a decode failure. -/
def read_bundle_burn (P : PointValid) (native : List Nat) (s : List Nat) :
    Except PErr (List (List Nat × Int) × List Nat) :=
  pbind (vectorRead (read_asset_burn P) s) fun burn s1 =>
    match validate_bundle_burn native burn with
    | .error e => .error (.invalidData (burnErrorMessage e))
    | .ok () => .ok (burn, s1)

theorem validateBurnGo_ok_iff (native : List Nat) (seen : List (List Nat))
    (l : List (List Nat × Int)) :
    validateBurnGo native seen l = .ok () ↔
      ((l.map Prod.fst).Nodup ∧
        ∀ p ∈ l, p.1 ∉ seen ∧ p.1 ≠ native ∧ p.2 ≠ 0) := by
  induction l generalizing seen with
  | nil => simp [validateBurnGo]
  | cons q rest ih =>
      rcases q with ⟨asset, amount⟩
      rw [validateBurnGo]
      by_cases h1 : asset ∈ seen
      · simp only [if_pos h1]
        constructor
        · intro hcontra; exact absurd hcontra (by simp)
        · rintro ⟨-, hall⟩
          exact absurd h1 (hall (asset, amount) (List.mem_cons_self _ _)).1
      · rw [if_neg h1]
        by_cases h2 : asset = native
        · simp only [if_pos h2]
          constructor
          · intro hcontra; exact absurd hcontra (by simp)
          · rintro ⟨-, hall⟩
            exact absurd h2 (hall (asset, amount) (List.mem_cons_self _ _)).2.1
        · rw [if_neg h2]
          by_cases h3 : amount = 0
          · simp only [if_pos h3]
            constructor
            · intro hcontra; exact absurd hcontra (by simp)
            · rintro ⟨-, hall⟩
              exact absurd h3 (hall (asset, amount) (List.mem_cons_self _ _)).2.2
          · rw [if_neg h3, ih (asset :: seen)]
            simp only [List.map_cons, List.nodup_cons, List.mem_cons, List.mem_map]
            constructor
            · rintro ⟨hnodup, hall⟩
              refine ⟨⟨?_, hnodup⟩, ?_⟩
              · rintro ⟨p, hp, hfst⟩
                exact (hall p hp).1 (Or.inl hfst)
              · rintro p (rfl | hp)
                · exact ⟨h1, h2, h3⟩
                · have := hall p hp
                  exact ⟨fun hx => this.1 (Or.inr hx), this.2⟩
            · rintro ⟨⟨hnotin, hnodup⟩, hall⟩
              refine ⟨hnodup, ?_⟩
              intro p hp
              have := hall p (Or.inr hp)
              refine ⟨?_, this.2⟩
              rintro (hx | hx)
              · exact hnotin ⟨p, hp, hx⟩
              · exact this.1 hx

/-- C2. The contract of `validate_bundle_burn`: success exactly when all
assets are pairwise distinct, none is the native asset and no amount is zero;
the three concrete example lists fail with the matching error; and
`read_bundle_burn` turns any validation failure into a decode failure. -/
theorem burn_validation_contract :
    (∀ (native : List Nat) (l : List (List Nat × Int)),
      validate_bundle_burn native l = .ok () ↔
        ((l.map Prod.fst).Nodup ∧ ∀ p ∈ l, p.1 ≠ native ∧ p.2 ≠ 0)) ∧
    (∀ (native a b : List Nat), a ≠ native →
      validate_bundle_burn native [(a, 10), (a, 20), (b, 10)] = .error .DuplicateAsset) ∧
    (∀ native : List Nat,
      validate_bundle_burn native [(native, 20)] = .error .NativeAsset) ∧
    (∀ (native a : List Nat), a ≠ native →
      validate_bundle_burn native [(a, 0)] = .error .ZeroAmount) ∧
    (∀ (P : PointValid) (native s : List Nat) (l : List (List Nat × Int))
        (r : List Nat) (e : BurnError),
      vectorRead (read_asset_burn P) s = .ok (l, r) →
      validate_bundle_burn native l = .error e →
      read_bundle_burn P native s = .error (.invalidData (burnErrorMessage e))) := by
  refine ⟨?_, ?_, ?_, ?_, ?_⟩
  · intro native l
    rw [validate_bundle_burn, validateBurnGo_ok_iff]
    simp
  · intro native a b h
    simp [validate_bundle_burn, validateBurnGo, h]
  · intro native
    simp [validate_bundle_burn, validateBurnGo]
  · intro native a h
    simp [validate_bundle_burn, validateBurnGo, h]
  · intro P native s l r e hvec hval
    rw [read_bundle_burn, hvec, pbind_ok, hval]

/-- What the spec says a single burn entry does to the scan, given the set of
assets of the earlier entries: the duplicate-asset check precedes the
native-asset check, which precedes the zero-amount check. -/
def entryOffenseSpec (native : List Nat) (earlier : List (List Nat))
    (p : List Nat × Int) : Option BurnError :=
  if p.1 ∈ earlier then some .DuplicateAsset
  else if p.1 = native then some .NativeAsset
  else if p.2 = 0 then some .ZeroAmount
  else none

theorem entryOffenseSpec_congr (native : List Nat) (E1 E2 : List (List Nat))
    (p : List Nat × Int) (h : p.1 ∈ E1 ↔ p.1 ∈ E2) :
    entryOffenseSpec native E1 p = entryOffenseSpec native E2 p := by
  unfold entryOffenseSpec
  by_cases h1 : p.1 ∈ E1
  · rw [if_pos h1, if_pos (h.1 h1)]
  · rw [if_neg h1, if_neg (fun hx => h1 (h.2 hx))]

theorem validateBurnGo_first_offense (native : List Nat) (seen : List (List Nat))
    (pre : List (List Nat × Int)) (p : List Nat × Int) (post : List (List Nat × Int))
    (e : BurnError) (h1 : validateBurnGo native seen pre = .ok ())
    (h2 : entryOffenseSpec native (seen ++ pre.map Prod.fst) p = some e) :
    validateBurnGo native seen (pre ++ p :: post) = .error e := by
  induction pre generalizing seen with
  | nil =>
      simp only [List.map_nil, List.append_nil] at h2
      rcases p with ⟨asset, amount⟩
      rw [List.nil_append, validateBurnGo]
      unfold entryOffenseSpec at h2
      by_cases hd : asset ∈ seen
      · rw [if_pos hd] at h2 ⊢
        obtain rfl := Option.some.inj h2
        rfl
      · rw [if_neg hd] at h2 ⊢
        by_cases hn : asset = native
        · rw [if_pos hn] at h2 ⊢
          obtain rfl := Option.some.inj h2
          rfl
        · rw [if_neg hn] at h2 ⊢
          by_cases hz : amount = 0
          · rw [if_pos hz] at h2 ⊢
            obtain rfl := Option.some.inj h2
            rfl
          · rw [if_neg hz] at h2
            exact Option.noConfusion h2
  | cons q pre ih =>
      rcases q with ⟨qa, qamt⟩
      rw [List.cons_append, validateBurnGo]
      rw [validateBurnGo] at h1
      by_cases hd : qa ∈ seen
      · rw [if_pos hd] at h1; exact Except.noConfusion h1
      · rw [if_neg hd] at h1 ⊢
        by_cases hn : qa = native
        · rw [if_pos hn] at h1; exact Except.noConfusion h1
        · rw [if_neg hn] at h1 ⊢
          by_cases hz : qamt = 0
          · rw [if_pos hz] at h1; exact Except.noConfusion h1
          · rw [if_neg hz] at h1 ⊢
            apply ih (qa :: seen) h1
            rw [← h2]
            apply entryOffenseSpec_congr
            simp only [List.mem_append, List.mem_cons, List.map_cons]
            tauto

/-- C10. `validate_bundle_burn` is a single left-to-right scan with a
deterministic error choice: the empty list passes, and the error returned is
that of the first offending entry in list order, where within one entry the
duplicate check precedes the native check, which precedes the zero check; in
particular a leading `(native, 0)` entry yields `NativeAsset`, and a leading
zero-amount entry yields `ZeroAmount` whatever follows it. -/
theorem burn_scan_order :
    (∀ native : List Nat, validate_bundle_burn native [] = .ok ()) ∧
    (∀ (native : List Nat) (pre : List (List Nat × Int)) (p : List Nat × Int)
        (post : List (List Nat × Int)) (e : BurnError),
      validate_bundle_burn native pre = .ok () →
      entryOffenseSpec native (pre.map Prod.fst) p = some e →
      validate_bundle_burn native (pre ++ p :: post) = .error e) ∧
    (∀ (native : List Nat) (rest : List (List Nat × Int)),
      validate_bundle_burn native ((native, 0) :: rest) = .error .NativeAsset) ∧
    (∀ (native a : List Nat) (rest : List (List Nat × Int)), a ≠ native →
      validate_bundle_burn native ((a, 0) :: rest) = .error .ZeroAmount) := by
  refine ⟨fun native => rfl, ?_, ?_, ?_⟩
  · intro native pre p post e h1 h2
    exact validateBurnGo_first_offense native [] pre p post e h1
      (by rw [List.nil_append]; exact h2)
  · intro native rest
    simp [validate_bundle_burn, validateBurnGo]
  · intro native a rest h
    simp [validate_bundle_burn, validateBurnGo, h]

/-- The native asset and two distinct test assets, as canonical 32-byte
encodings. -/
def cNative : List Nat := List.replicate 32 0

/-- First test asset. -/
def cAssetA : List Nat := List.replicate 32 1

/-- Second test asset. -/
def cAssetB : List Nat := List.replicate 32 2

theorem burn_validation_contract_witness :
    cAssetA ≠ cNative ∧
    validate_bundle_burn cNative [(cAssetA, 10), (cAssetA, 20), (cAssetB, 10)] =
      .error .DuplicateAsset ∧
    validate_bundle_burn cNative [(cNative, 20)] = .error .NativeAsset ∧
    validate_bundle_burn cNative [(cAssetA, 0)] = .error .ZeroAmount :=
  ⟨by decide,
    burn_validation_contract.2.1 cNative cAssetA cAssetB (by decide),
    burn_validation_contract.2.2.1 cNative,
    burn_validation_contract.2.2.2.1 cNative cAssetA (by decide)⟩

theorem burn_scan_order_witness :
    validate_bundle_burn cNative [(cAssetA, 5)] = .ok () ∧
    entryOffenseSpec cNative [cAssetA] (cAssetA, 7) = some .DuplicateAsset ∧
    validate_bundle_burn cNative [(cAssetA, 5), (cAssetA, 7)] = .error .DuplicateAsset :=
  ⟨by decide, by decide,
    burn_scan_order.2.1 cNative [(cAssetA, 5)] (cAssetA, 7) [] .DuplicateAsset
      (by decide) (by decide)⟩

/-- C3, counterexample. The code checks burn amounts only for equality with
zero: a strictly negative amount (representable, since the amount type is a
signed balance and the decoder accepts any in-range `i64`) passes
`validate_bundle_burn`, so validation does not error on every amount ≤ 0. -/
theorem burn_nonpositive_counterexample :
    validate_bundle_burn cNative [(cAssetA, -5)] = .ok () ∧ (-5 : Int) ≤ 0 :=
  ⟨by decide, by decide⟩

/-- C3, amended. Every burn entry accepted by `validate_bundle_burn` (and
hence every entry of a burn list returned by `read_bundle_burn`) has a
nonzero amount: a list containing a zero-amount entry never validates. -/
theorem burn_nonzero_amount_invariant :
    (∀ (native : List Nat) (l : List (List Nat × Int)),
      validate_bundle_burn native l = .ok () → ∀ p ∈ l, p.2 ≠ 0) ∧
    (∀ (P : PointValid) (native s : List Nat) (l : List (List Nat × Int))
        (r : List Nat),
      read_bundle_burn P native s = .ok (l, r) → ∀ p ∈ l, p.2 ≠ 0) ∧
    (∀ (native : List Nat) (l : List (List Nat × Int)),
      (∃ p ∈ l, p.2 = 0) → validate_bundle_burn native l ≠ .ok ()) := by
  have key : ∀ (native : List Nat) (l : List (List Nat × Int)),
      validate_bundle_burn native l = .ok () → ∀ p ∈ l, p.2 ≠ 0 := by
    intro native l h p hp
    rw [validate_bundle_burn, validateBurnGo_ok_iff] at h
    exact (h.2 p hp).2.2
  refine ⟨key, ?_, ?_⟩
  · intro P native s l r h
    rw [read_bundle_burn] at h
    cases hv : vectorRead (read_asset_burn P) s with
    | error e => rw [hv, pbind_error] at h; exact Except.noConfusion h
    | ok v =>
        rcases v with ⟨burn, s1⟩
        rw [hv, pbind_ok] at h
        cases hval : validate_bundle_burn native burn with
        | error e => rw [hval] at h; exact Except.noConfusion h
        | ok u =>
            cases u
            rw [hval] at h
            have hb : burn = l := congrArg Prod.fst (Except.ok.inj h)
            subst hb
            exact key native _ hval
  · rintro native l ⟨p, hp, hz⟩ hok
    exact key native l hok p hp hz

theorem burn_nonzero_amount_invariant_witness :
    (∃ p ∈ [(cAssetA, (0 : Int))], p.2 = 0) ∧
    validate_bundle_burn cNative [(cAssetA, 0)] ≠ .ok () :=
  ⟨⟨(cAssetA, 0), by decide, rfl⟩,
    burn_nonzero_amount_invariant.2.2 cNative [(cAssetA, 0)]
      ⟨(cAssetA, 0), by decide, rfl⟩⟩

/-- `OrchardSighashKind` (one registered kind). -/
inductive OrchardSighashKind where
  | AllEffecting
deriving DecidableEq, Repr

/-- `IssueSighashKind` (one registered kind). -/
inductive IssueSighashKind where
  | AllEffecting
deriving DecidableEq, Repr

/-- `ORCHARD_SIGHASH_INFO_V0` from `sighash_versioning.rs`: version byte 0,
empty associated data. -/
def ORCHARD_SIGHASH_INFO_V0 : List Nat := [0]

/-- `ISSUE_SIGHASH_INFO_V0` from `sighash_versioning.rs`. -/
def ISSUE_SIGHASH_INFO_V0 : List Nat := [0]

/-- `orchard_sighash_kind_to_info` from `sighash_versioning.rs`. -/
def orchard_sighash_kind_to_info : OrchardSighashKind → List Nat
  | .AllEffecting => ORCHARD_SIGHASH_INFO_V0

/-- `orchard_sighash_kind_from_info` from `sighash_versioning.rs`: only the
exact byte string `[0x00]` is recognized. -/
def orchard_sighash_kind_from_info : List Nat → Option OrchardSighashKind
  | [0] => some .AllEffecting
  | _ => none

/-- `issue_sighash_kind_to_info` from `sighash_versioning.rs`. -/
def issue_sighash_kind_to_info : IssueSighashKind → List Nat
  | .AllEffecting => ISSUE_SIGHASH_INFO_V0

/-- `issue_sighash_kind_from_info` from `sighash_versioning.rs`. -/
def issue_sighash_kind_from_info : List Nat → Option IssueSighashKind
  | [0] => some .AllEffecting
  | _ => none

/-- C7. The sighash registry is bijective over its domain: converting any
known Orchard or issuance sighash kind to its info tag and back yields
`Some` of the same kind, and any byte string other than a registered tag
(`[0x00]` is the only one; this covers the empty string and a registered tag
with a trailing byte) maps to `None`. -/
theorem sighash_registry_bijective :
    (∀ k : OrchardSighashKind,
      orchard_sighash_kind_from_info (orchard_sighash_kind_to_info k) = some k) ∧
    (∀ k : IssueSighashKind,
      issue_sighash_kind_from_info (issue_sighash_kind_to_info k) = some k) ∧
    (∀ bs : List Nat, bs ≠ ORCHARD_SIGHASH_INFO_V0 →
      orchard_sighash_kind_from_info bs = none) ∧
    (∀ bs : List Nat, bs ≠ ISSUE_SIGHASH_INFO_V0 →
      issue_sighash_kind_from_info bs = none) := by
  have horch : ∀ bs : List Nat, bs ≠ ORCHARD_SIGHASH_INFO_V0 →
      orchard_sighash_kind_from_info bs = none := by
    intro bs h
    match bs with
    | [] => rfl
    | 0 :: [] => exact absurd rfl h
    | 0 :: x :: xs => rfl
    | (n + 1) :: xs => rfl
  have hiss : ∀ bs : List Nat, bs ≠ ISSUE_SIGHASH_INFO_V0 →
      issue_sighash_kind_from_info bs = none := by
    intro bs h
    match bs with
    | [] => rfl
    | 0 :: [] => exact absurd rfl h
    | 0 :: x :: xs => rfl
    | (n + 1) :: xs => rfl
  exact ⟨fun k => by cases k <;> rfl, fun k => by cases k <;> rfl, horch, hiss⟩

theorem sighash_registry_bijective_witness :
    (([] : List Nat) ≠ ORCHARD_SIGHASH_INFO_V0 ∧
      orchard_sighash_kind_from_info [] = none) ∧
    ([0, 0] ≠ ORCHARD_SIGHASH_INFO_V0 ∧
      orchard_sighash_kind_from_info [0, 0] = none) ∧
    ([0, 0] ≠ ISSUE_SIGHASH_INFO_V0 ∧
      issue_sighash_kind_from_info [0, 0] = none) :=
  ⟨⟨by decide, sighash_registry_bijective.2.2.1 [] (by decide)⟩,
    ⟨by decide, sighash_registry_bijective.2.2.1 [0, 0] (by decide)⟩,
    ⟨by decide, sighash_registry_bijective.2.2.2 [0, 0] (by decide)⟩⟩

/-- An issuance `Note` in its decoded form: recipient address, value, asset,
rho, rseed — each non-value field identified with its canonical encoding. -/
structure NoteData where
  recipient : List Nat
  value : Nat
  asset : List Nat
  rho : List Nat
  rseed : List Nat
deriving DecidableEq, Repr

/-- `IssueAction`: asset description bytes, issued notes, finalize flag. -/
structure IssueActionData where
  asset_desc : List Nat
  notes : List NoteData
  finalized : Bool
deriving DecidableEq, Repr

/-- `IssueBundle<Signed>`: issuer validating key, actions, reference-notes
map (modelled as an association list) and the authorizing signature. -/
structure IssueBundleData where
  ik : List Nat
  actions : List IssueActionData
  reference_notes : List (List Nat × NoteData)
  authorization : List Nat
deriving DecidableEq, Repr

/-- Abstract validity predicates for the issuance primitives, standing for
the external checks `Address::from_raw_address_bytes`,
`AssetBase::from_bytes`, `Rho::from_bytes`, `RandomSeed::from_bytes` (which
also takes rho) and `Note::from_parts`, plus
`IssuanceValidatingKey::from_bytes`. -/
structure IssuePrimValid where
  addr : List Nat → Bool
  asset : List Nat → Bool
  rho : List Nat → Bool
  rseed : List Nat → List Nat → Bool
  note : NoteData → Bool
  ik : List Nat → Bool

/-- `read_recipient` from `issuance.rs`: a 43-byte raw address. -/
def read_recipient (P : IssuePrimValid) (s : List Nat) :
    Except PErr (List Nat × List Nat) :=
  pbind (readExact 43 s) fun b s1 =>
    if P.addr b then .ok (b, s1) else .error (.invalidData "Invalid recipient address")

/-- `read_rho` from `issuance.rs`. -/
def read_rho (P : IssuePrimValid) : List Nat → Except PErr (List Nat × List Nat) :=
  readPoint32 P.rho "invalid Pallas point for rho"

/-- `read_rseed` from `issuance.rs`: 32 bytes validated against rho. -/
def read_rseed (P : IssuePrimValid) (rho : List Nat) (s : List Nat) :
    Except PErr (List Nat × List Nat) :=
  pbind (readExact 32 s) fun b s1 =>
    if P.rseed rho b then .ok (b, s1) else .error (.invalidData "Invalid rseed")

/-- `read_note` from `issuance.rs`: recipient, 8-byte little-endian value,
asset, rho, rseed, assembled through the fallible `Note::from_parts`. -/
def read_note (P : IssuePrimValid) (s : List Nat) :
    Except PErr (NoteData × List Nat) :=
  pbind (read_recipient P s) fun recipient s1 =>
    pbind (readExact 8 s1) fun vb s2 =>
      pbind (read_asset P.asset s2) fun asset s3 =>
        pbind (read_rho P s3) fun rho s4 =>
          pbind (read_rseed P rho s4) fun rseed s5 =>
            if P.note ⟨recipient, fromLE vb, asset, rho, rseed⟩ then
              .ok (⟨recipient, fromLE vb, asset, rho, rseed⟩, s5)
            else .error (.invalidData "Invalid note")

/-- `read_action` from `issuance.rs` (v6 ordering): length-prefixed asset
description, then the notes vector, then the finalize flag byte, rejecting
any flag byte other than 0 or 1. The notes vector is not required to be
non-empty. -/
def read_action (P : IssuePrimValid) (s : List Nat) :
    Except PErr (IssueActionData × List Nat) :=
  pbind (vectorRead readByte s) fun desc s1 =>
    pbind (vectorRead (read_note P) s1) fun notes s2 =>
      pbind (readByte s2) fun fin s3 =>
        if fin = 0 then .ok (⟨desc, notes, false⟩, s3)
        else if fin = 1 then .ok (⟨desc, notes, true⟩, s3)
        else .error (.invalidData "Invalid value for finalize")

/-- `read_ik` from `issuance.rs`: the 32-byte issuer validating key. -/
def read_ik (P : IssuePrimValid) : List Nat → Except PErr (List Nat × List Nat) :=
  readPoint32 P.ik "Invalid Pallas point for IssuanceValidatingKey"

/-- `read_authorization` from `issuance.rs`: 64 signature bytes, with a read
failure reported as invalid data rather than end-of-input. -/
def read_authorization (s : List Nat) : Except PErr (List Nat × List Nat) :=
  if s.length < 64 then .error (.invalidData "Invalid signature for IssuanceAuthorization")
  else .ok (s.take 64, s.drop 64)

/-- `read_reference_notes` from `issuance.rs`: an acknowledged stub that
consumes nothing and returns the empty map. -/
def read_reference_notes (s : List Nat) :
    Except PErr (List (List Nat × NoteData) × List Nat) :=
  .ok ([], s)

/-- `read_v6_bundle` from `issuance.rs`: actions (an empty action vector means
no bundle), then issuer key, authorization, and the (stubbed) reference
notes. -/
def read_v6_bundle (P : IssuePrimValid) (s : List Nat) :
    Except PErr (Option IssueBundleData × List Nat) :=
  pbind (vectorRead (read_action P) s) fun actions s1 =>
    if actions.isEmpty then .ok (none, s1)
    else
      pbind (read_ik P s1) fun ik s2 =>
        pbind (read_authorization s2) fun auth s3 =>
          pbind (read_reference_notes s3) fun refs s4 =>
            .ok (some ⟨ik, actions, refs, auth⟩, s4)

/-- `write_note` from `issuance.rs`. -/
def write_note (n : NoteData) : List Nat :=
  n.recipient ++ leBytes 8 n.value ++ n.asset ++ n.rho ++ n.rseed

/-- `write_action` from `issuance.rs` (v6 ordering). -/
def write_action (a : IssueActionData) : List Nat :=
  vectorWrite (fun x => [x]) a.asset_desc ++
  vectorWrite write_note a.notes ++
  [if a.finalized then 1 else 0]

/-- `write_reference_notes` from `issuance.rs`: an acknowledged stub that
writes nothing, whatever the map holds. -/
def write_reference_notes (_ : List (List Nat × NoteData)) : List Nat := []

/-- `write_v6_bundle` from `issuance.rs`: actions, issuer key, signature,
reference notes; an absent bundle is a zero compact-size count. -/
def write_v6_bundle : Option IssueBundleData → List Nat
  | some b =>
      vectorWrite write_action b.actions ++ b.ik ++ b.authorization ++
        write_reference_notes b.reference_notes
  | none => compactSizeWrite 0

/-- Validity of an in-memory issuance note: canonical fixed-size encodings, a
64-bit value, and acceptance by `Note::from_parts`. -/
def ValidNote (P : IssuePrimValid) (n : NoteData) : Prop :=
  n.recipient.length = 43 ∧ P.addr n.recipient = true ∧
  n.value < 2 ^ 64 ∧
  n.asset.length = 32 ∧ P.asset n.asset = true ∧
  n.rho.length = 32 ∧ P.rho n.rho = true ∧
  n.rseed.length = 32 ∧ P.rseed n.rho n.rseed = true ∧
  P.note n = true

instance (P : IssuePrimValid) (n : NoteData) : Decidable (ValidNote P n) := by
  unfold ValidNote; infer_instance

theorem read_note_write (P : IssuePrimValid) (n : NoteData) (r : List Nat)
    (h : ValidNote P n) : read_note P (write_note n ++ r) = .ok (n, r) := by
  obtain ⟨h1, h2, h3, h4, h5, h6, h7, h8, h9, h10⟩ := h
  rcases n with ⟨recipient, value, asset, rho, rseed⟩
  simp only at h1 h2 h3 h4 h5 h6 h7 h8 h9 h10
  have hfl : fromLE (leBytes 8 value) = value := by
    rw [fromLE_leBytes]
    exact Nat.mod_eq_of_lt (by norm_num at h3 ⊢; omega)
  rw [write_note, read_note]
  simp only [List.append_assoc]
  rw [read_recipient, readExact_append 43 _ _ h1, pbind_ok, if_pos h2, pbind_ok,
    readExact_append 8 _ _ (leBytes_length 8 value), pbind_ok,
    read_asset, readPoint32_append _ _ _ _ h4 h5, pbind_ok,
    read_rho, readPoint32_append _ _ _ _ h6 h7, pbind_ok,
    read_rseed, readExact_append 32 _ _ h8, pbind_ok, if_pos h9, pbind_ok, hfl,
    if_pos h10]

/-- Validity of an in-memory issue action. -/
def ValidIssueAction (P : IssuePrimValid) (a : IssueActionData) : Prop :=
  a.asset_desc.length ≤ MAX_SIZE ∧ a.notes.length ≤ MAX_SIZE ∧
  ∀ n ∈ a.notes, ValidNote P n

instance (P : IssuePrimValid) (a : IssueActionData) :
    Decidable (ValidIssueAction P a) := by
  unfold ValidIssueAction; infer_instance

theorem read_action_write (P : IssuePrimValid) (a : IssueActionData) (r : List Nat)
    (h : ValidIssueAction P a) : read_action P (write_action a ++ r) = .ok (a, r) := by
  obtain ⟨h1, h2, h3⟩ := h
  rcases a with ⟨desc, notes, finalized⟩
  simp only at h1 h2 h3
  rw [write_action, read_action]
  simp only [vectorWrite_singleton, List.append_assoc, List.singleton_append,
    List.cons_append, List.nil_append]
  rw [vectorRead_bytes desc _ h1, pbind_ok,
    vectorRead_map (read_note P) write_note id notes _ h2
      (fun n hn r2 => read_note_write P n r2 (h3 n hn)),
    pbind_ok, List.map_id]
  cases finalized
  · rw [readByte_cons, pbind_ok]
    norm_num
  · rw [readByte_cons, pbind_ok]
    norm_num

/-- Validity of an in-memory signed issue bundle: at least one action, every
action valid, a canonical 32-byte issuer key, and a 64-byte signature. -/
def ValidIssueBundle (P : IssuePrimValid) (b : IssueBundleData) : Prop :=
  b.actions ≠ [] ∧
  b.actions.length ≤ MAX_SIZE ∧
  (∀ a ∈ b.actions, ValidIssueAction P a) ∧
  b.ik.length = 32 ∧ P.ik b.ik = true ∧
  b.authorization.length = 64

instance (P : IssuePrimValid) (b : IssueBundleData) :
    Decidable (ValidIssueBundle P b) := by
  unfold ValidIssueBundle; infer_instance

theorem read_authorization_append (b r : List Nat) (h : b.length = 64) :
    read_authorization (b ++ r) = .ok (b, r) := by
  have hlen : ¬ (b ++ r).length < 64 := by simp [List.length_append, h]
  rw [read_authorization, if_neg hlen, ← h, List.take_left, List.drop_left]

/-- C9, amended. For every validly constructed signed v6 issuance bundle whose
reference-notes map is empty, serializing with `write_v6_bundle` and decoding
with `read_v6_bundle` returns `Some` of the identical bundle — issuer
validating key, authorizing signature, every action's asset description,
notes and finalize flag included. (The reference-notes serialization is an
acknowledged stub that writes nothing and reads back an empty map, so the
empty-map restriction is forced; see the counterexample.) -/
theorem issue_v6_roundtrip (P : IssuePrimValid) (b : IssueBundleData) (r : List Nat)
    (h : ValidIssueBundle P b) (href : b.reference_notes = []) :
    read_v6_bundle P (write_v6_bundle (some b) ++ r) = .ok (some b, r) := by
  obtain ⟨hne, hcount, hacts, hik1, hik2, hauth⟩ := h
  rcases b with ⟨ik, actions, refs, auth⟩
  simp only at hne hcount hacts hik1 hik2 hauth href
  subst href
  rw [write_v6_bundle, read_v6_bundle, write_reference_notes]
  simp only [List.append_assoc, List.append_nil]
  rw [vectorRead_map (read_action P) write_action id actions _ hcount
      (fun a ha r2 => read_action_write P a r2 (hacts a ha)),
    pbind_ok, List.map_id]
  have hie : actions.isEmpty = false := by
    cases actions with
    | nil => exact absurd rfl hne
    | cons a tl => rfl
  rw [hie, if_neg Bool.false_ne_true,
    read_ik, readPoint32_append _ _ _ _ hik1 hik2, pbind_ok,
    read_authorization_append auth r hauth, pbind_ok,
    read_reference_notes, pbind_ok]

/-- A trivially-true instantiation of the issuance validity predicates. -/
def issueAllValid : IssuePrimValid :=
  ⟨fun _ => true, fun _ => true, fun _ => true, fun _ _ => true, fun _ => true,
    fun _ => true⟩

/-- A concrete issuance note. -/
def cNote : NoteData :=
  ⟨List.replicate 43 1, 5, List.replicate 32 2, List.replicate 32 3,
    List.replicate 32 4⟩

/-- A concrete signed issue bundle carrying a non-empty reference-notes map. -/
def cIssueBundleRefs : IssueBundleData :=
  ⟨List.replicate 32 5, [⟨[], [], false⟩], [(List.replicate 32 2, cNote)],
    List.replicate 64 7⟩

/-- A concrete signed issue bundle with an empty reference-notes map. -/
def cIssueBundle : IssueBundleData :=
  ⟨List.replicate 32 5, [⟨[6], [cNote], true⟩], [], List.replicate 64 7⟩

/-- C9, counterexample. A validly constructed signed v6 issuance bundle with a
non-empty reference-notes map does not round-trip field-for-field:
`write_v6_bundle` writes nothing for the map and `read_v6_bundle` always
returns it empty, so the decoded bundle differs from the original. -/
theorem issue_v6_roundtrip_counterexample :
    ValidIssueBundle issueAllValid cIssueBundleRefs ∧
    read_v6_bundle issueAllValid (write_v6_bundle (some cIssueBundleRefs)) =
      .ok (some ⟨List.replicate 32 5, [⟨[], [], false⟩], [], List.replicate 64 7⟩, []) ∧
    (⟨List.replicate 32 5, [⟨[], [], false⟩], [], List.replicate 64 7⟩ : IssueBundleData) ≠
      cIssueBundleRefs :=
  ⟨by decide, by decide, by decide⟩

theorem issue_v6_roundtrip_witness :
    ValidIssueBundle issueAllValid cIssueBundle ∧
    cIssueBundle.reference_notes = [] ∧
    read_v6_bundle issueAllValid (write_v6_bundle (some cIssueBundle) ++ []) =
      .ok (some cIssueBundle, []) :=
  ⟨by decide, rfl, issue_v6_roundtrip issueAllValid cIssueBundle [] (by decide) rfl⟩

/-- A v6 issuance stream declaring one action whose notes vector is empty:
action count 1, asset description length 0, notes count 0, finalize byte 0,
then a 32-byte issuer key and a 64-byte signature. -/
def emptyNotesStream : List Nat :=
  1 :: 0 :: 0 :: 0 :: (List.replicate 32 7 ++ List.replicate 64 9)

/-- C8, counterexample. `read_action` places no lower bound on the notes
vector, so `read_v6_bundle` can return `Some` of a bundle one of whose
actions has an empty notes sequence. -/
theorem issue_empty_notes_counterexample :
    read_v6_bundle issueAllValid emptyNotesStream =
      .ok (some ⟨List.replicate 32 7, [⟨[], [], false⟩], [], List.replicate 64 9⟩, []) ∧
    (⟨[], [], false⟩ : IssueActionData).notes = [] :=
  ⟨by decide, rfl⟩

/-- C8, amended. Decoding can return `Some` bundle only when the action
sequence itself is non-empty (an empty action vector decodes to no bundle);
individual actions, however, may carry an empty notes sequence. -/
theorem issue_decoded_actions_nonempty (P : IssuePrimValid) (s : List Nat)
    (b : IssueBundleData) (r : List Nat)
    (h : read_v6_bundle P s = .ok (some b, r)) : b.actions ≠ [] := by
  rw [read_v6_bundle] at h
  cases hv : vectorRead (read_action P) s with
  | error e => rw [hv, pbind_error] at h; exact Except.noConfusion h
  | ok v =>
      rcases v with ⟨actions, s1⟩
      rw [hv, pbind_ok] at h
      by_cases hie : actions.isEmpty
      · rw [if_pos hie] at h
        exact Option.noConfusion (congrArg Prod.fst (Except.ok.inj h))
      · rw [if_neg hie] at h
        cases hik : read_ik P s1 with
        | error e => rw [hik, pbind_error] at h; exact Except.noConfusion h
        | ok v2 =>
            rcases v2 with ⟨ik, s2⟩
            rw [hik, pbind_ok] at h
            cases hau : read_authorization s2 with
            | error e => rw [hau, pbind_error] at h; exact Except.noConfusion h
            | ok v3 =>
                rcases v3 with ⟨auth, s3⟩
                rw [hau, pbind_ok, read_reference_notes, pbind_ok] at h
                have hb : (⟨ik, actions, [], auth⟩ : IssueBundleData) = b :=
                  Option.some.inj (congrArg Prod.fst (Except.ok.inj h))
                subst hb
                intro hcontra
                simp only at hcontra
                rw [hcontra] at hie
                exact hie rfl

theorem issue_decoded_actions_nonempty_witness :
    read_v6_bundle issueAllValid emptyNotesStream =
      .ok (some ⟨List.replicate 32 7, [⟨[], [], false⟩], [], List.replicate 64 9⟩, []) ∧
    (⟨List.replicate 32 7, [⟨[], [], false⟩], [], List.replicate 64 9⟩ :
      IssueBundleData).actions ≠ [] :=
  ⟨by decide,
    issue_decoded_actions_nonempty issueAllValid emptyNotesStream _ [] (by decide)⟩

end ZcashCodec
